import Mathlib

/-!
# Adjudication Rules Engine — verification development

Shallow embedding of the rules engine of the healthcare-claims backend
(`app/models/rule.py`, `app/schemas/rule.py`, `app/services/rule_service.py`,
`app/api/v1/endpoints/rules.py`).

JSON values (rule `condition_logic` payloads and claim contexts) are modelled
by the inductive `Json`; Python truthiness, `==`, ordering and membership are
modelled by `truthy`, `pyEq`, `pyGt`/`pyLt` and `pyIn`.  Datetimes are
modelled as integer timestamps.  Exceptions raised by the Python code are
modelled with `Except Unit`.
-/

namespace RulesEngine

/-- JSON-ish value universe for claim contexts and `condition_logic` columns.
Numbers are modelled as integers (the claims exercise only integer data). -/
inductive Json where
  | null : Json
  | bool (b : Bool) : Json
  | num (n : Int) : Json
  | str (s : String) : Json
  | arr (xs : List Json) : Json
  | obj (kvs : List (String × Json)) : Json
deriving Repr

/-- Python truthiness of a value (`if context_value`, `if not conditions`). -/
def truthy : Json → Bool
  | .null => false
  | .bool b => b
  | .num n => n != 0
  | .str s => s != ""
  | .arr xs => !xs.isEmpty
  | .obj kvs => !kvs.isEmpty

/-- Numeric view used by Python comparisons: `bool` is an `int` subclass. -/
def asNum : Json → Option Int
  | .num n => some n
  | .bool b => some (if b then 1 else 0)
  | _ => none

mutual
/-- Python `==` between context/condition values.  `bool` and `num` compare
numerically (`True == 1`); distinct shapes otherwise compare unequal.
Dict comparison is modelled field-order-sensitively; no rule below compares
dicts. -/
def pyEq : Json → Json → Bool
  | .null, .null => true
  | .str a, .str b => a == b
  | .arr a, .arr b => pyEqList a b
  | .obj a, .obj b => pyEqObj a b
  | a, b =>
    match asNum a, asNum b with
    | some x, some y => x == y
    | _, _ => false

def pyEqList : List Json → List Json → Bool
  | [], [] => true
  | x :: xs, y :: ys => pyEq x y && pyEqList xs ys
  | _, _ => false

def pyEqObj : List (String × Json) → List (String × Json) → Bool
  | [], [] => true
  | (k, v) :: xs, (l, w) :: ys => k == l && pyEq v w && pyEqObj xs ys
  | _, _ => false
end

/-- Python `>`.  Defined for number/number (with bool as int) and
string/string; any other pairing raises `TypeError` (`.error`).  (List/list
lexicographic comparison is not exercised by any rule condition below and is
modelled as a type error.) -/
def pyGt (a b : Json) : Except Unit Bool :=
  match asNum a, asNum b with
  | some x, some y => .ok (x > y)
  | _, _ =>
    match a, b with
    | .str s, .str t => .ok (t < s)
    | _, _ => .error ()

/-- Python `<`, same domain as `pyGt`. -/
def pyLt (a b : Json) : Except Unit Bool :=
  match asNum a, asNum b with
  | some x, some y => .ok (x < y)
  | _, _ =>
    match a, b with
    | .str s, .str t => .ok (s < t)
    | _, _ => .error ()

/-- Prefix test on character lists. -/
def listPrefix : List Char → List Char → Bool
  | [], _ => true
  | _ :: _, [] => false
  | a :: as, b :: bs => a == b && listPrefix as bs

/-- Infix test on character lists. -/
def listInfix (sub : List Char) : List Char → Bool
  | [] => sub.isEmpty
  | c :: rest => listPrefix sub (c :: rest) || listInfix sub rest

/-- Substring test on the underlying character lists (Python `sub in s`). -/
def strContains (sub s : String) : Bool :=
  listInfix sub.data s.data

/-- Python membership `needle in haystack`: element membership for lists,
substring for strings, key membership for dicts; `in` on a non-container
raises `TypeError`. -/
def pyIn (needle haystack : Json) : Except Unit Bool :=
  match haystack with
  | .arr xs => .ok (xs.any (pyEq needle))
  | .str s =>
    match needle with
    | .str sub => .ok (strContains sub s)
    | _ => .error ()
  | .obj kvs =>
    match needle with
    | .str k => .ok (kvs.any (fun kv => kv.1 == k))
    | .num _ | .bool _ | .null => .ok false
    | _ => .error ()
  | _ => .error ()

/-- Association-list lookup backing Python `dict[...]`/`dict.get`. -/
def jLookup : List (String × Json) → String → Option Json
  | [], _ => none
  | (k, v) :: kvs, key => if k == key then some v else jLookup kvs key

/-- Python `d.get(key, default)` on a JSON object. -/
def jGetD (j : Json) (k : String) (d : Json) : Json :=
  match j with
  | .obj kvs =>
    match jLookup kvs k with
    | some v => v
    | none => d
  | _ => d

/-- Python `d.get(key)` (default `None`). -/
def jGet (j : Json) (k : String) : Json := jGetD j k .null

/-- The `context.get(field)` where `field` itself came out of a condition dict:
context keys are strings, so a non-string field is absent. -/
def ctxGet (ctx : Json) (field : Json) : Json :=
  match field with
  | .str s => jGet ctx s
  | _ => .null

/-! ## Data model (`app/models/rule.py`, `app/schemas/rule.py`) -/

/-- The `RuleType` enum. -/
inductive RuleType where
  | validation | adjudication | calculation | notification
deriving DecidableEq, Repr

/-- The `ActionType` enum. -/
inductive ActionType where
  | approve | deny | flag | calculate | notify | transform
deriving DecidableEq, Repr

/-- The `.value` of the `ActionType` Python string enum. -/
def ActionType.value : ActionType → String
  | .approve => "approve"
  | .deny => "deny"
  | .flag => "flag"
  | .calculate => "calculate"
  | .notify => "notify"
  | .transform => "transform"

/-- The `Rule` ORM row (`models/rule.py`).  `id` and the user foreign keys are
opaque identifiers modelled as naturals; datetimes as integer timestamps. -/
structure Rule where
  id : Nat
  rule_name : String
  rule_code : String
  description : Option String
  rule_type : RuleType
  action_type : ActionType
  condition_logic : Json
  priority : Int
  is_active : Bool
  effective_from : Option Int
  effective_to : Option Int
  denial_reason_template : Option String
  flag_reason_template : Option String
  category : Option String
  tags : List String
  created_by : Nat
  last_modified_by : Nat
deriving Repr

/-- The `RuleVersion` ORM row (`models/rule.py`): exactly the snapshot columns the
model declares — name, type, action, condition logic, priority, plus
`change_description`, `effective_from` and `created_by`. -/
structure RuleVersion where
  id : Nat
  rule_id : Nat
  version_number : Nat
  rule_name : String
  rule_type : RuleType
  action_type : ActionType
  condition_logic : Json
  priority : Int
  change_description : Option String
  effective_from : Option Int
  created_by : Nat
deriving Repr

/-- The `ConditionLogic` pydantic schema (`schemas/rule.py`): the recursive
condition shape the API accepts, with keys `type`, `conditions`, `field`,
`operator` (symbols such as `=`, `!=`, `>`) and `value`. -/
inductive ConditionLogicS where
  | mk (type : String) (conditions : Option (List ConditionLogicS))
       (field : Option String) (operator : Option String) (value : Option Json)
deriving Repr

mutual
/-- The `model_dump` of a `ConditionLogic` schema value: a dict with exactly the
five schema keys (pydantic dumps unset optional fields as `None`). -/
def ConditionLogicS.dump : ConditionLogicS → Json
  | .mk type conditions field operator value =>
    .obj [("type", .str type),
          ("conditions", match conditions with
            | some cs => .arr (ConditionLogicS.dumpList cs)
            | none => .null),
          ("field", match field with | some f => .str f | none => .null),
          ("operator", match operator with | some o => .str o | none => .null),
          ("value", match value with | some v => v | none => .null)]

def ConditionLogicS.dumpList : List ConditionLogicS → List Json
  | [] => []
  | c :: cs => ConditionLogicS.dump c :: ConditionLogicS.dumpList cs
end

/-- The `RuleCreate` request schema (`schemas/rule.py`).  It has no `is_active`
field; `priority` defaults to 100 and is validated to 1..1000. -/
structure RuleCreate where
  rule_name : String
  rule_code : String
  description : Option String
  rule_type : RuleType
  action_type : ActionType
  condition_logic : ConditionLogicS
  priority : Int
  effective_from : Option Int
  effective_to : Option Int
  denial_reason_template : Option String
  flag_reason_template : Option String
  category : Option String
  tags : Option (List String)
deriving Repr

/-- The `RuleUpdate` request schema (`schemas/rule.py`): all fields optional. -/
structure RuleUpdate where
  rule_name : Option String := none
  description : Option String := none
  rule_type : Option RuleType := none
  action_type : Option ActionType := none
  condition_logic : Option ConditionLogicS := none
  priority : Option Int := none
  is_active : Option Bool := none
  effective_from : Option Int := none
  effective_to : Option Int := none
  denial_reason_template : Option String := none
  flag_reason_template : Option String := none
  category : Option String := none
  tags : Option (List String) := none
  change_description : Option String := none
deriving Repr

/-! ## Condition evaluator (`RuleService._evaluate_conditions`) -/

/-- One entry of the `rules` list inside `condition_logic`: the body of the
`for rule in rules` loop of `_evaluate_conditions`.  `field`, `operator` and
`value` are read with `dict.get`; the six recognised operators behave as in
the source, any other operator appends `False`.  The `greater_than`,
`less_than`, `contains` and `in` branches guard on Python truthiness of the
context value (`... if context_value else False`). -/
def evalCondRule (rule ctx : Json) : Except Unit Bool :=
  let field := jGet rule "field"
  let op := jGet rule "operator"
  let value := jGet rule "value"
  let contextValue := ctxGet ctx field
  if pyEq op (.str "equals") then .ok (pyEq contextValue value)
  else if pyEq op (.str "not_equals") then .ok (!pyEq contextValue value)
  else if pyEq op (.str "greater_than") then
    if truthy contextValue then pyGt contextValue value else .ok false
  else if pyEq op (.str "less_than") then
    if truthy contextValue then pyLt contextValue value else .ok false
  else if pyEq op (.str "contains") then
    if truthy contextValue then pyIn value contextValue else .ok false
  else if pyEq op (.str "in") then
    if truthy contextValue then pyIn contextValue value else .ok false
  else .ok false

/-- The `RuleService._evaluate_conditions(conditions, context)`.  A falsy
`conditions` dict or a falsy `rules` list yields `False`; every entry of
`rules` is evaluated (collecting `results`), then combined with `all`/`any`
according to the top-level `operator` (default `"and"`); a top-level operator
other than `and`/`or` yields `False`.  A truthy non-list `rules` value makes
the Python loop raise, modelled as `.error`. -/
def evaluateConditions (conditions ctx : Json) : Except Unit Bool :=
  if !truthy conditions then .ok false
  else
    let operator := jGetD conditions "operator" (.str "and")
    let rules := jGetD conditions "rules" (.arr [])
    if !truthy rules then .ok false
    else
      match rules with
      | .arr rs => do
        let results ← rs.mapM (fun r => evalCondRule r ctx)
        if pyEq operator (.str "and") then pure (results.all id)
        else if pyEq operator (.str "or") then pure (results.any id)
        else pure false
      | _ => .error ()

/-- The dict returned by `RuleService.evaluate_rule`: `matched`, `action`
(the matched rule's `action_type.value`), `message` (denial or flag template)
and whether the `except` branch set an `error` key. -/
structure EvalResult where
  matched : Bool
  action : Option String
  message : Option String
  errored : Bool
deriving DecidableEq, Repr

/-- The `RuleService.evaluate_rule(rule, context)`: runs the condition evaluator
inside `try/except`; an exception leaves `matched=False` and records an
error; a match records the action value and the denial/flag message
template. -/
def evaluate_rule (rule : Rule) (context : Json) : EvalResult :=
  match evaluateConditions rule.condition_logic context with
  | .error _ => { matched := false, action := none, message := none, errored := true }
  | .ok false => { matched := false, action := none, message := none, errored := false }
  | .ok true =>
    { matched := true
      action := some rule.action_type.value
      message :=
        match rule.action_type with
        | .deny => rule.denial_reason_template
        | .flag => rule.flag_reason_template
        | _ => none
      errored := false }

/-! ## Rule lifecycle (`RuleService`, `endpoints/rules.py`)

State is a `DB`: the `rules` and `rule_versions` tables (insertion-ordered
lists) plus a fresh-id counter standing in for UUID generation. -/

/-- The two persisted tables plus an id source. -/
structure DB where
  rules : List Rule
  versions : List RuleVersion
  nextId : Nat
deriving Repr

/-- The empty database. -/
def emptyDB : DB := { rules := [], versions := [], nextId := 0 }

/-- The `SELECT MAX(version_number) WHERE rule_id = ...` with the source's
`result.scalar() or 0` fallback for a rule with no versions yet. -/
def maxVersionNumber (versions : List RuleVersion) (rid : Nat) : Nat :=
  (versions.filter (fun v => v.rule_id == rid)).foldl (fun m v => max m v.version_number) 0

/-- The `RuleService._create_version(rule, created_by, change_description)`:
reads the current max version number for the rule and inserts a new
`RuleVersion` row numbered max + 1, copying the columns the `RuleVersion`
model declares. -/
def createVersion (db : DB) (rule : Rule) (created_by : Nat)
    (change_description : String) : DB :=
  let maxV := maxVersionNumber db.versions rule.id
  let v : RuleVersion :=
    { id := db.nextId
      rule_id := rule.id
      version_number := maxV + 1
      rule_name := rule.rule_name
      rule_type := rule.rule_type
      action_type := rule.action_type
      condition_logic := rule.condition_logic
      priority := rule.priority
      change_description := some change_description
      effective_from := rule.effective_from
      created_by := created_by }
  { db with versions := db.versions ++ [v], nextId := db.nextId + 1 }

/-- The `RuleService._generate_rule_code`: `PREFIX-NNNN` where `NNNN` is the
zero-padded count of existing codes with that type's three-letter beginning,
plus one. -/
def generateRuleCode (db : DB) (rule_type : RuleType) : String :=
  let pfx : String :=
    match rule_type with
    | .validation => "VAL"
    | .adjudication => "ADJ"
    | .calculation => "CAL"
    | .notification => "NOT"
  let count := (db.rules.filter
    (fun r => listPrefix (pfx ++ "-").data r.rule_code.data)).length
  let digits := toString (count + 1)
  let padded :=
    if digits.length < 4 then
      String.mk (List.replicate (4 - digits.length) '0') ++ digits
    else digits
  pfx ++ "-" ++ padded

/-- The `RuleService.create(data, created_by)`.  `rule_code` falls back to a
generated code when falsy; `condition_logic` stores the schema dump (a
`ConditionLogic` instance is always truthy, so the `or {}` fallback is
dead); `priority or 100` and `tags or []` follow Python truthiness.
`RuleCreate` carries no `is_active` field, so the row takes the model's
`True` default.  Inserts the row, then writes the "Initial version"
snapshot. -/
def serviceCreate (db : DB) (data : RuleCreate) (created_by : Nat) : DB × Rule :=
  let code := if data.rule_code == "" then generateRuleCode db data.rule_type
              else data.rule_code
  let rule : Rule :=
    { id := db.nextId
      rule_name := data.rule_name
      rule_code := code
      description := data.description
      rule_type := data.rule_type
      action_type := data.action_type
      condition_logic := data.condition_logic.dump
      priority := if data.priority == 0 then 100 else data.priority
      is_active := true
      effective_from := data.effective_from
      effective_to := data.effective_to
      denial_reason_template := data.denial_reason_template
      flag_reason_template := data.flag_reason_template
      category := data.category
      tags := data.tags.getD []
      created_by := created_by
      last_modified_by := created_by }
  let db1 : DB := { db with rules := db.rules ++ [rule], nextId := db.nextId + 1 }
  (createVersion db1 rule created_by "Initial version", rule)

/-- Typed errors surfaced by the endpoints (HTTP 400/404). -/
inductive ApiError where
  | duplicateCode | notFound
deriving DecidableEq, Repr

/-- The `create_rule` endpoint: rejects when `get_by_code(rule_data.rule_code)`
finds an existing row, otherwise delegates to `RuleService.create`. -/
def create_rule (db : DB) (data : RuleCreate) (user : Nat) :
    Except ApiError (DB × Rule) :=
  if db.rules.any (fun r => r.rule_code == data.rule_code) then
    .error .duplicateCode
  else
    .ok (serviceCreate db data user)

/-- The field-by-field partial update of `RuleService.update`: each schema
field overwrites the row only when it `is not None`. -/
def applyUpdate (rule : Rule) (data : RuleUpdate) (modified_by : Nat) : Rule :=
  { rule with
    rule_name := data.rule_name.getD rule.rule_name
    description := match data.description with
      | some d => some d
      | none => rule.description
    rule_type := data.rule_type.getD rule.rule_type
    action_type := data.action_type.getD rule.action_type
    condition_logic := match data.condition_logic with
      | some c => c.dump
      | none => rule.condition_logic
    priority := data.priority.getD rule.priority
    is_active := data.is_active.getD rule.is_active
    effective_from := match data.effective_from with
      | some t => some t
      | none => rule.effective_from
    effective_to := match data.effective_to with
      | some t => some t
      | none => rule.effective_to
    denial_reason_template := match data.denial_reason_template with
      | some t => some t
      | none => rule.denial_reason_template
    flag_reason_template := match data.flag_reason_template with
      | some t => some t
      | none => rule.flag_reason_template
    category := match data.category with
      | some c => some c
      | none => rule.category
    tags := data.tags.getD rule.tags
    last_modified_by := modified_by }

/-- The `RuleService.update(rule_id, data, modified_by)`: `None` when the rule
does not exist; otherwise applies the partial update in place and writes a
new version snapshot described by `change_description or "Rule updated"`. -/
def serviceUpdate (db : DB) (rule_id : Nat) (data : RuleUpdate)
    (modified_by : Nat) : Option (DB × Rule) :=
  match db.rules.find? (fun r => r.id == rule_id) with
  | none => none
  | some rule =>
    let rule' := applyUpdate rule data modified_by
    let db1 : DB :=
      { db with rules := db.rules.map (fun r => if r.id == rule_id then rule' else r) }
    let desc :=
      match data.change_description with
      | some s => if s == "" then "Rule updated" else s
      | none => "Rule updated"
    some (createVersion db1 rule' modified_by desc, rule')

/-- The `RuleService.delete(rule_id)`: `session.delete(rule)` removes the `Rule`
row, and the `versions` relationship's `cascade="all, delete-orphan"`
removes every `RuleVersion` row of that rule. -/
def serviceDelete (db : DB) (rule_id : Nat) : DB × Bool :=
  if db.rules.any (fun r => r.id == rule_id) then
    ({ db with
        rules := db.rules.filter (fun r => r.id != rule_id)
        versions := db.versions.filter (fun v => v.rule_id != rule_id) }, true)
  else (db, false)

/-- The `RuleService.toggle_active(rule_id, is_active, modified_by)`: flips the
flag in place; writes no version snapshot. -/
def serviceToggleActive (db : DB) (rule_id : Nat) (is_active : Bool)
    (modified_by : Nat) : Option (DB × Rule) :=
  match db.rules.find? (fun r => r.id == rule_id) with
  | none => none
  | some rule =>
    let rule' := { rule with is_active := is_active, last_modified_by := modified_by }
    some ({ db with
      rules := db.rules.map (fun r => if r.id == rule_id then rule' else r) }, rule')

/-- Modelled from the spec: `RuleService.rollback` is called by the
`rollback_rule` endpoint but its implementation is absent from the
repository sources.  Per spec §4.2 it restores the Rule's mutable fields
from the named `RuleVersion` — which stores name, type, action, condition
logic, priority and `effective_from` — and appends a new forward version
whose change description records the rollback target. -/
def serviceRollback (db : DB) (rule_id : Nat) (version_id : Nat)
    (modified_by : Nat) : Option (DB × Rule) :=
  match db.rules.find? (fun r => r.id == rule_id) with
  | none => none
  | some rule =>
    match db.versions.find? (fun v => v.id == version_id && v.rule_id == rule_id) with
    | none => none
    | some v =>
      let rule' : Rule :=
        { rule with
          rule_name := v.rule_name
          rule_type := v.rule_type
          action_type := v.action_type
          condition_logic := v.condition_logic
          priority := v.priority
          effective_from := v.effective_from
          last_modified_by := modified_by }
      let db1 : DB :=
        { db with rules := db.rules.map (fun r => if r.id == rule_id then rule' else r) }
      some (createVersion db1 rule' modified_by
              ("Rollback to version " ++ toString v.version_number), rule')

/-! ## Catalog query (`RuleService.get_active_rules`) -/

/-- Stable insertion of a rule into a priority-ascending list: equal
priorities keep their existing relative order. -/
def insertByPriority (r : Rule) : List Rule → List Rule
  | [] => [r]
  | x :: xs =>
    if r.priority ≤ x.priority then r :: x :: xs else x :: insertByPriority r xs

/-- Stable ascending sort on `priority` alone — the query's single
`ORDER BY priority ASC`; rows of equal priority keep table order. -/
def sortByPriority : List Rule → List Rule
  | [] => []
  | r :: rs => insertByPriority r (sortByPriority rs)

/-- The `WHERE` clause of `get_active_rules`: `is_active`, the
`effective_from`/`effective_to` window around `now`, and the optional
`rule_type` filter. -/
def activePred (now : Int) (rule_type : Option RuleType) (r : Rule) : Bool :=
  r.is_active
  && (match r.effective_from with | none => true | some t => decide (t ≤ now))
  && (match r.effective_to with | none => true | some t => decide (now ≤ t))
  && (match rule_type with | none => true | some ty => r.rule_type == ty)

/-- The `RuleService.get_active_rules(rule_type)` at instant `now`
(`datetime.utcnow()`): filter by `activePred`, order by priority ascending
(and nothing else). -/
def get_active_rules (db : DB) (now : Int) (rule_type : Option RuleType) : List Rule :=
  sortByPriority (db.rules.filter (activePred now rule_type))

/-! ## Execution pipeline -/

/-- One `RuleExecutionTrace` entry of a pipeline run. -/
structure TraceEntry where
  rule_id : Nat
  rule_code : String
  matched : Bool
  action_taken : Option String
  errored : Bool
deriving DecidableEq, Repr

/-- The `RuleTestResult` payload of the execute/test endpoints. -/
structure PipelineResult where
  total_rules_tested : Nat
  rules_matched : Nat
  final_outcome : Option String
  execution_trace : List TraceEntry
deriving DecidableEq, Repr

/-- Modelled from the spec: `RuleService.execute_for_claim` /
`RuleService.test_rules` are called by the execute and test endpoints but
their implementations are absent from the repository sources.  Per spec
§4.4 the pipeline evaluates every rule of the ordered active set via the
evaluator (no stop at first match), records a trace entry per rule, and
derives `final_outcome` from the matched actions with strict precedence
DENY > FLAG > APPROVE > no outcome. -/
def execute_pipeline (rules : List Rule) (context : Json) : PipelineResult :=
  let evals := rules.map (fun r => (r, evaluate_rule r context))
  let trace := evals.map (fun re =>
    { rule_id := re.1.id
      rule_code := re.1.rule_code
      matched := re.2.matched
      action_taken := re.2.action
      errored := re.2.errored : TraceEntry })
  let matchedActions := (evals.filter (fun re => re.2.matched)).map (fun re => re.1.action_type)
  let final_outcome :=
    if matchedActions.any (fun a => a == ActionType.deny) then some ActionType.deny.value
    else if matchedActions.any (fun a => a == ActionType.flag) then some ActionType.flag.value
    else if matchedActions.any (fun a => a == ActionType.approve) then some ActionType.approve.value
    else none
  { total_rules_tested := rules.length
    rules_matched := matchedActions.length
    final_outcome := final_outcome
    execution_trace := trace }

/-! ## Operation sequences over the lifecycle -/

/-- One lifecycle API call. -/
inductive Op where
  | create (data : RuleCreate) (user : Nat)
  | update (rule_id : Nat) (data : RuleUpdate) (user : Nat)
  | delete (rule_id : Nat)
  | toggleActive (rule_id : Nat) (active : Bool) (user : Nat)
  | rollback (rule_id : Nat) (version_id : Nat) (user : Nat)

/-- Apply one lifecycle call; a failing call (duplicate code, missing rule or
version) leaves the database unchanged, as the endpoints raise before any
write. -/
def step (db : DB) : Op → DB
  | .create data user =>
    match create_rule db data user with
    | .ok (db', _) => db'
    | .error _ => db
  | .update rid data user =>
    match serviceUpdate db rid data user with
    | some (db', _) => db'
    | none => db
  | .delete rid => (serviceDelete db rid).1
  | .toggleActive rid act user =>
    match serviceToggleActive db rid act user with
    | some (db', _) => db'
    | none => db
  | .rollback rid vid user =>
    match serviceRollback db rid vid user with
    | some (db', _) => db'
    | none => db

/-- Run a sequence of lifecycle calls from the empty database. -/
def run (ops : List Op) : DB := ops.foldl step emptyDB

/-! ## Auxiliary views used by the statements -/

/-- The `version_number` column of a rule's versions, in table order. -/
def versionNumbersIn (vs : List RuleVersion) (rid : Nat) : List Nat :=
  (vs.filter (fun v => v.rule_id == rid)).map (fun v => v.version_number)

/-- The `[1, 2, ..., n]`: the gapless version-number sequence of length `n`. -/
def seqTo : Nat → List Nat
  | 0 => []
  | n + 1 => seqTo n ++ [n + 1]

/-- Invariant carried by every reachable database: ids are below the
fresh-id counter, and every rule's version numbers are exactly
`[1, ..., n]` in table order. -/
def DBInv (db : DB) : Prop :=
  (∀ r ∈ db.rules, r.id < db.nextId) ∧
  (∀ v ∈ db.versions, v.rule_id < db.nextId) ∧
  ∀ rid, versionNumbersIn db.versions rid
    = seqTo (versionNumbersIn db.versions rid).length

/-! ## Concrete fixtures for witnesses and counterexamples -/

/-- A one-comparison condition dict in the shape `_evaluate_conditions`
actually reads (`operator`/`rules` keys). -/
def compEntry (f op : String) (v : Json) : Json :=
  .obj [("field", .str f), ("operator", .str op), ("value", v)]

/-- A single-comparison `condition_logic` dict. -/
def singleCond (f op : String) (v : Json) : Json :=
  .obj [("operator", .str "and"), ("rules", .arr [compEntry f op v])]

/-- A concrete rule with the given id, code, priority, action and
condition. -/
def sampleRule (id : Nat) (code : String) (pri : Int) (act : ActionType)
    (cond : Json) : Rule :=
  { id := id
    rule_name := code
    rule_code := code
    description := none
    rule_type := .adjudication
    action_type := act
    condition_logic := cond
    priority := pri
    is_active := true
    effective_from := none
    effective_to := none
    denial_reason_template := none
    flag_reason_template := none
    category := none
    tags := []
    created_by := 0
    last_modified_by := 0 }

/-- A concrete create request (schema-shaped condition, as the API forces). -/
def sampleCreate (code : String) (tmpl : Option String) : RuleCreate :=
  { rule_name := "Sample rule"
    rule_code := code
    description := none
    rule_type := .adjudication
    action_type := .deny
    condition_logic := .mk "COMPARISON" none (some "amount") (some ">") (some (.num 100))
    priority := 10
    effective_from := none
    effective_to := none
    denial_reason_template := tmpl
    flag_reason_template := none
    category := none
    tags := none }

/-- Database after one create with a denial template `"OLD"` (rule id 0,
version row id 1 numbered 1). -/
def c3db1 : DB := (serviceCreate emptyDB (sampleCreate "RULE_A" (some "OLD")) 1).1

/-- Update patch replacing only the denial template. -/
def c3upd : RuleUpdate := { denial_reason_template := some "NEW" }

/-- Database after updating rule 0's denial template to `"NEW"` (adds
version row id 2 numbered 2). -/
def c3db2 : DB :=
  match serviceUpdate c3db1 0 c3upd 1 with
  | some p => p.1
  | none => emptyDB

/-- Database after rolling rule 0 back to version row id 1. -/
def c3db3 : DB :=
  match serviceRollback c3db2 0 1 1 with
  | some p => p.1
  | none => emptyDB

/-- The rule returned by that rollback. -/
def c3r3 : Rule :=
  match serviceRollback c3db2 0 1 1 with
  | some p => p.2
  | none => sampleRule 0 "X" 0 .deny .null

/-- Rule with a denial template, a flag template, an `effective_to` bound and
`is_active = true`. -/
def c4r1 : Rule :=
  { sampleRule 0 "C4" 10 .deny (singleCond "amount" "greater_than" (.num 100)) with
    denial_reason_template := some "denied"
    flag_reason_template := some "flagged"
    effective_to := some 99
    is_active := true }

/-- Same rule with those four fields changed — everything the snapshot
stores is identical. -/
def c4r2 : Rule :=
  { c4r1 with
    denial_reason_template := none
    flag_reason_template := none
    effective_to := none
    is_active := false }

/-- Two active windowless rules sharing priority 5, codes in descending
order in the table. -/
def c6db : DB :=
  { rules := [sampleRule 0 "B" 5 .flag (singleCond "x" "equals" (.num 1)),
              sampleRule 1 "A" 5 .flag (singleCond "x" "equals" (.num 1))]
    versions := []
    nextId := 2 }

/-- A condition that matches context `{x: 1}`. -/
def condX1 : Json := singleCond "x" "equals" (.num 1)

/-- Context `{x: 1}`. -/
def ctxX1 : Json := .obj [("x", .num 1)]

/-- Priority-5 APPROVE rule whose condition matches `ctxX1`. -/
def c1approve : Rule := sampleRule 1 "P5" 5 .approve condX1

/-- Priority-10 DENY rule whose condition matches `ctxX1`. -/
def c1deny : Rule := sampleRule 0 "P10" 10 .deny condX1

/-- One-rule database whose rule has code `"DUP"`. -/
def c8db : DB :=
  { rules := [sampleRule 0 "DUP" 10 .flag condX1], versions := [], nextId := 1 }

/-- A concrete lifecycle trace: create one rule, then update its priority. -/
def c7ops : List Op :=
  [.create (sampleCreate "C7RULE" none) 1, .update 0 { priority := some 42 } 1]

/-!
## Theorems
-/

/-- C2: the spec says `active=false` is the only retirement and no lifecycle
operation ever removes a Rule or RuleVersion row, and the delete endpoint's
own docstring says "Soft delete - marks as inactive" — but `RuleService.delete`
issues `session.delete(rule)`, removing the Rule row, and the
`cascade="all, delete-orphan"` relationship removes every RuleVersion row
with it.  Evaluated at the failing input: a database holding exactly the
rule created by one prior create call (rule id 0, one version row). -/
theorem C2_delete_removes_rule_and_versions :
    c3db1.rules.length = 1 ∧ c3db1.versions.length = 1 ∧
    (serviceDelete c3db1 0).2 = true ∧
    (serviceDelete c3db1 0).1.rules = [] ∧
    (serviceDelete c3db1 0).1.versions = [] :=
  ⟨rfl, rfl, rfl, rfl, rfl⟩

/-- C4 counterexample: two rules that differ in their denial template, flag
template, `effective_to` and `active` flag produce byte-identical version
snapshots, so the rule's state at a version cannot be reconstructed from the
snapshot alone — refuting the claim that the snapshot contains a full copy
of all defining fields. -/
theorem C4_counterexample :
    createVersion emptyDB c4r1 0 "change" = createVersion emptyDB c4r2 0 "change" ∧
    c4r1.denial_reason_template ≠ c4r2.denial_reason_template ∧
    c4r1.flag_reason_template ≠ c4r2.flag_reason_template ∧
    c4r1.effective_to ≠ c4r2.effective_to ∧
    c4r1.is_active ≠ c4r2.is_active :=
  ⟨rfl, by decide, by decide, by decide, by decide⟩

/-- C4 amended: every snapshot written by `_create_version` records the
rule's post-mutation name, type, action, condition logic, priority and
`effective_from` (plus the change description and author), numbered one
above the rule's current maximum — but not the description, active flag,
`effective_to`, message templates, category or tags. -/
theorem C4_amended_snapshot_fields :
    ∀ (db : DB) (rule : Rule) (u : Nat) (d : String),
    ∃ v : RuleVersion,
      (createVersion db rule u d).versions = db.versions ++ [v] ∧
      (createVersion db rule u d).rules = db.rules ∧
      v.rule_id = rule.id ∧
      v.version_number = maxVersionNumber db.versions rule.id + 1 ∧
      v.rule_name = rule.rule_name ∧ v.rule_type = rule.rule_type ∧
      v.action_type = rule.action_type ∧ v.condition_logic = rule.condition_logic ∧
      v.priority = rule.priority ∧ v.effective_from = rule.effective_from ∧
      v.change_description = some d ∧ v.created_by = u := by
  intro db rule u d
  exact ⟨_, rfl, rfl, rfl, rfl, rfl, rfl, rfl, rfl, rfl, rfl, rfl, rfl⟩

/-- C5 counterexample: a COMPARISON whose `value` is null, against a context
where the field is absent, matches under EQUALS (the claim says every
operator but NOT_EQUALS yields false) and fails under NOT_EQUALS (the claim
says NOT_EQUALS yields true): `context.get` returns `None` for the absent
field and `None == None` holds. -/
theorem C5_counterexample :
    evaluateConditions (singleCond "x" "equals" .null) (.obj []) = .ok true ∧
    evaluateConditions (singleCond "x" "not_equals" .null) (.obj []) = .ok false ∧
    jGet (.obj []) "x" = .null :=
  ⟨rfl, rfl, rfl⟩

/-- C9 counterexample: with `{amount: 0}` in the context, a
`greater_than -5` comparison evaluates to false even though `0 > -5` is
true — the `if context_value` truthiness guard excludes numeric zero from
the comparison, refuting "a numeric context value of 0 still participates". -/
theorem C9_counterexample :
    evalCondRule (compEntry "amount" "greater_than" (.num (-5)))
        (.obj [("amount", .num 0)]) = .ok false ∧
    evaluateConditions (singleCond "amount" "greater_than" (.num (-5)))
        (.obj [("amount", .num 0)]) = .ok false ∧
    pyGt (.num 0) (.num (-5)) = .ok true :=
  ⟨rfl, rfl, rfl⟩

/-- Python `None == v` is false for every non-null value. -/
theorem pyEq_null_left (v : Json) (hv : v ≠ .null) : pyEq .null v = false := by
  cases v with
  | null => exact absurd rfl hv
  | bool b => rfl
  | num n => rfl
  | str s => rfl
  | arr xs => rfl
  | obj kvs => rfl

/-- C5 amended: for a COMPARISON whose `value` is not null, an absent field
yields false for every operator except `not_equals`, which yields true; the
counterexample forces the non-null restriction (with a null value, EQUALS
is true and NOT_EQUALS false on an absent field). -/
theorem C5_amended_absent_field :
    ∀ (f op : String) (v : Json) (kvs : List (String × Json)),
    v ≠ .null → jLookup kvs f = none →
    evalCondRule (compEntry f op v) (.obj kvs) = .ok (op == "not_equals") ∧
    evaluateConditions (singleCond f op v) (.obj kvs) = .ok (op == "not_equals") := by
  intro f op v kvs hv hl
  have hctx : ctxGet (.obj kvs) (jGet (compEntry f op v) "field") = .null := by
    simp [compEntry, jGet, jGetD, jLookup, ctxGet, hl]
  have hnull := pyEq_null_left v hv
  have hmain : evalCondRule (compEntry f op v) (.obj kvs) = .ok (op == "not_equals") := by
    rw [evalCondRule, hctx]
    have hop : ∀ s : String, pyEq (jGet (compEntry f op v) "operator") (.str s) = (op == s) := by
      intro s; simp [compEntry, jGet, jGetD, jLookup, pyEq]
    have hval : jGet (compEntry f op v) "value" = v := by
      simp [compEntry, jGet, jGetD, jLookup]
    rw [hval]
    by_cases h1 : op = "equals"
    · subst h1; simp [hop, hnull]
    · by_cases h2 : op = "not_equals"
      · subst h2; simp [hop, hnull]
      · by_cases h3 : op = "greater_than"
        · subst h3; simp [hop, truthy]
        · by_cases h4 : op = "less_than"
          · subst h4; simp [hop, truthy]
          · by_cases h5 : op = "contains"
            · subst h5; simp [hop, truthy]
            · by_cases h6 : op = "in"
              · subst h6; simp [hop, truthy]
              · simp [hop, h1, h2, h3, h4, h5, h6]
  refine ⟨hmain, ?_⟩
  have hloop : List.mapM.loop (fun r => evalCondRule r (.obj kvs)) [compEntry f op v] []
      = .ok [op == "not_equals"] := by
    simp [List.mapM.loop, hmain]
  simp [evaluateConditions, singleCond, truthy, jGetD, jLookup, List.mapM, hloop, pyEq, List.all]

/-- C5 witness: instantiates the amended theorem at `equals` over value 5
with an empty context: an absent field under EQUALS yields false. -/
theorem C5_witness :
    evalCondRule (compEntry "x" "equals" (.num 5)) (.obj []) = .ok false ∧
    evaluateConditions (singleCond "x" "equals" (.num 5)) (.obj []) = .ok false := by
  have h := C5_amended_absent_field "x" "equals" (.num 5) []
    (fun hc => Json.noConfusion hc) rfl
  exact ⟨h.1, h.2⟩

/-- The `rule.get("field")` read of a comparison entry. -/
theorem jGet_compEntry_field (f op : String) (v : Json) :
    jGet (compEntry f op v) "field" = .str f := by
  simp [compEntry, jGet, jGetD, jLookup]

/-- The `rule.get("operator")` read of a comparison entry. -/
theorem jGet_compEntry_operator (f op : String) (v : Json) :
    jGet (compEntry f op v) "operator" = .str op := by
  simp [compEntry, jGet, jGetD, jLookup]

/-- The `rule.get("value")` read of a comparison entry. -/
theorem jGet_compEntry_value (f op : String) (v : Json) :
    jGet (compEntry f op v) "value" = v := by
  simp [compEntry, jGet, jGetD, jLookup]

/-- C9 amended: for `greater_than`/`less_than` over a present numeric
context value the result is the order comparison guarded by truthiness — a
zero context value yields false without comparing; and a truthy
non-comparable context value (a non-empty string against a numeric bound)
raises inside `_evaluate_conditions`, which `evaluate_rule` catches,
yielding `matched=false` with the error recorded — nothing escapes the rule
evaluation. -/
theorem C9_amended_order_comparisons :
    ∀ (f : String) (x y : Int),
    (evalCondRule (compEntry f "greater_than" (.num y)) (.obj [(f, .num x)])
        = .ok (!(x == 0) && decide (x > y))) ∧
    (evalCondRule (compEntry f "less_than" (.num y)) (.obj [(f, .num x)])
        = .ok (!(x == 0) && decide (x < y))) ∧
    (∀ (s : String) (rule : Rule), s ≠ "" →
      rule.condition_logic = singleCond f "greater_than" (.num y) →
      evaluate_rule rule (.obj [(f, .str s)])
        = { matched := false, action := none, message := none, errored := true }) := by
  intro f x y
  have hctx : ctxGet (.obj [(f, .num x)]) (.str f) = .num x := by
    simp [ctxGet, jGet, jGetD, jLookup]
  have hctxs : ∀ s : String, ctxGet (.obj [(f, .str s)]) (.str f) = .str s := by
    intro s; simp [ctxGet, jGet, jGetD, jLookup]
  refine ⟨?_, ?_, ?_⟩
  · simp only [evalCondRule, jGet_compEntry_field, jGet_compEntry_operator,
      jGet_compEntry_value, hctx]
    cases hx : (x == 0) with
    | true => simp [pyEq, truthy, bne, hx]
    | false => simp [pyEq, truthy, bne, hx, pyGt, asNum]
  · simp only [evalCondRule, jGet_compEntry_field, jGet_compEntry_operator,
      jGet_compEntry_value, hctx]
    cases hx : (x == 0) with
    | true => simp [pyEq, truthy, bne, hx]
    | false => simp [pyEq, truthy, bne, hx, pyLt, asNum]
  · intro s rule hs hcond
    have hone : evalCondRule (compEntry f "greater_than" (.num y)) (.obj [(f, .str s)])
        = .error () := by
      simp only [evalCondRule, jGet_compEntry_field, jGet_compEntry_operator,
        jGet_compEntry_value, hctxs]
      have hts : truthy (.str s) = true := by simp [truthy, hs]
      simp [pyEq, hts, pyGt, asNum]
    have hcon : evaluateConditions rule.condition_logic (.obj [(f, .str s)])
        = .error () := by
      rw [hcond]
      simp [evaluateConditions, singleCond, truthy, jGetD, jLookup, List.mapM,
            List.mapM.loop, hone]
      rfl
    rw [evaluate_rule, hcon]

/-- C9 witness: instantiates the amended theorem at context `{amt: 7}`
against bound 3 (comparison runs, 7 > 3), and at context `{amt: "abc"}`
(type mismatch is caught: matched false, error recorded). -/
theorem C9_witness :
    (evalCondRule (compEntry "amt" "greater_than" (.num 3)) (.obj [("amt", .num 7)])
        = .ok true) ∧
    (evaluate_rule (sampleRule 2 "W9" 5 .deny (singleCond "amt" "greater_than" (.num 3)))
        (.obj [("amt", .str "abc")])
        = { matched := false, action := none, message := none, errored := true }) := by
  have h := C9_amended_order_comparisons "amt" 7 3
  exact ⟨h.1, h.2.2 "abc" _ (by decide) rfl⟩

/-- C10: `_evaluate_conditions` reads only the `operator` and `rules` keys,
so a condition dict dumped from the API's `ConditionLogic` schema (keys
`type`, `conditions`, `field`, `operator`, `value`) has no `rules` list and
evaluates to false against every context; consequently a rule created
through the create endpoint (whose `condition_logic` is schema-shaped by
construction) can never match. -/
theorem C10_schema_conditions_never_match :
    ∀ (cl : ConditionLogicS) (ctx : Json),
    evaluateConditions cl.dump ctx = .ok false ∧
    ∀ (db : DB) (data : RuleCreate) (user : Nat) (p : DB × Rule),
      create_rule db data user = .ok p →
      (evaluate_rule p.2 ctx).matched = false := by
  have hdump : ∀ (cl : ConditionLogicS) (ctx : Json),
      evaluateConditions cl.dump ctx = .ok false := by
    intro cl ctx
    obtain ⟨t, cs, fl, o, v⟩ := cl
    rfl
  intro cl ctx
  refine ⟨hdump cl ctx, ?_⟩
  intro db data user p h
  have hr : p.2 = (serviceCreate db data user).2 := by
    unfold create_rule at h
    split at h
    · exact Except.noConfusion h
    · cases h; rfl
  have hcond : p.2.condition_logic = data.condition_logic.dump := by
    rw [hr]; rfl
  rw [evaluate_rule, hcond, hdump data.condition_logic ctx]

/-- C10 witness: a schema-shaped COMPARISON (`amount > 100`) evaluates to
false even against `{amount: 500}`, and the rule created from it through
the endpoint does not match that context. -/
theorem C10_witness :
    evaluateConditions
        (ConditionLogicS.dump (.mk "COMPARISON" none (some "amount") (some ">") (some (.num 100))))
        (.obj [("amount", .num 500)]) = .ok false ∧
    (evaluate_rule (serviceCreate emptyDB (sampleCreate "RULE_W" none) 0).2
        (.obj [("amount", .num 500)])).matched = false := by
  have h := C10_schema_conditions_never_match
    (.mk "COMPARISON" none (some "amount") (some ">") (some (.num 100)))
    (.obj [("amount", .num 500)])
  exact ⟨h.1, h.2 emptyDB (sampleCreate "RULE_W" none) 0
    (serviceCreate emptyDB (sampleCreate "RULE_W" none) 0) rfl⟩

/-- C8: creating with an already-present rule code fails with the
duplicate-code error before any write — the endpoint checks `get_by_code`
first and raises — so the database is unchanged. -/
theorem C8_duplicate_code_create_rejected :
    ∀ (db : DB) (data : RuleCreate) (user : Nat),
    (∃ r, r ∈ db.rules ∧ r.rule_code = data.rule_code) →
    create_rule db data user = .error .duplicateCode ∧
    step db (.create data user) = db ∧
    (step db (.create data user)).rules.length = db.rules.length ∧
    (step db (.create data user)).versions.length = db.versions.length := by
  intro db data user h
  obtain ⟨r, hr, hcode⟩ := h
  have hany : (db.rules.any (fun r => r.rule_code == data.rule_code)) = true :=
    List.any_eq_true.mpr ⟨r, hr, by simp [hcode]⟩
  have h1 : create_rule db data user = .error .duplicateCode := by
    simp [create_rule, hany]
  have h2 : step db (.create data user) = db := by
    simp [step, h1]
  exact ⟨h1, h2, by rw [h2], by rw [h2]⟩

/-- C8 witness: a one-rule database with code `DUP` rejects a second create
with code `DUP` and is left unchanged. -/
theorem C8_witness :
    create_rule c8db (sampleCreate "DUP" none) 3 = .error .duplicateCode ∧
    step c8db (.create (sampleCreate "DUP" none) 3) = c8db ∧
    (step c8db (.create (sampleCreate "DUP" none) 3)).rules.length = c8db.rules.length ∧
    (step c8db (.create (sampleCreate "DUP" none) 3)).versions.length = c8db.versions.length :=
  C8_duplicate_code_create_rejected c8db (sampleCreate "DUP" none) 3
    ⟨sampleRule 0 "DUP" 10 .flag condX1, by simp [c8db], rfl⟩

/-- C3 counterexample: update a rule's denial template from `"OLD"` to
`"NEW"`, then roll back to the pre-update version: the denial template is
still `"NEW"`, because the `RuleVersion` snapshot does not store it — so
the claim that rollback restores the Rule's mutable fields to the
pre-update state fails for the template fields. -/
theorem C3_counterexample :
    (serviceUpdate c3db1 0 c3upd 1).isSome = true ∧
    c3db1.rules.map (fun r => r.denial_reason_template) = [some "OLD"] ∧
    c3db2.versions.map (fun v => (v.id, v.version_number)) = [(1, 1), (2, 2)] ∧
    (serviceRollback c3db2 0 1 1).map (fun p => p.2.denial_reason_template)
        = some (some "NEW") :=
  ⟨rfl, rfl, rfl, rfl⟩

/-- Every version of a rule has a number bounded by the running maximum. -/
theorem foldl_max_version_bounds (l : List RuleVersion) : ∀ (a : Nat),
    a ≤ l.foldl (fun m v => max m v.version_number) a ∧
    ∀ w ∈ l, w.version_number ≤ l.foldl (fun m v => max m v.version_number) a := by
  induction l with
  | nil => exact fun a => ⟨Nat.le_refl a, fun w hw => absurd hw (List.not_mem_nil w)⟩
  | cons x xs ih =>
    intro a
    refine ⟨?_, ?_⟩
    · exact le_trans (Nat.le_max_left a x.version_number) (ih (max a x.version_number)).1
    · intro w hw
      rcases List.mem_cons.mp hw with hwx | hwxs
      · subst hwx
        exact le_trans (Nat.le_max_right a w.version_number) (ih (max a w.version_number)).1
      · exact (ih (max a x.version_number)).2 w hwxs

/-- A version row of rule `rid` never exceeds `maxVersionNumber`. -/
theorem le_maxVersionNumber (vs : List RuleVersion) (rid : Nat) :
    ∀ w ∈ vs, w.rule_id = rid → w.version_number ≤ maxVersionNumber vs rid := by
  intro w hw hrid
  have hmem : w ∈ vs.filter (fun v => v.rule_id == rid) :=
    List.mem_filter.mpr ⟨hw, by simp [hrid]⟩
  exact (foldl_max_version_bounds (vs.filter (fun v => v.rule_id == rid)) 0).2 w hmem

/-- C3 amended: a successful rollback restores exactly the fields the
`RuleVersion` snapshot stores — name, type, action, condition logic,
priority and `effective_from` (not the templates, `effective_to`,
description, category, tags or the active flag) — and appends a new version
row numbered current-max-plus-one, recording the rollback target in its
change description, strictly above every prior version number of the rule
and leaving all existing version rows in place. -/
theorem C3_amended_rollback_appends :
    ∀ (db : DB) (rid vid u : Nat) (db' : DB) (r' : Rule),
    serviceRollback db rid vid u = some (db', r') →
    ∃ v, db.versions.find? (fun w => w.id == vid && w.rule_id == rid) = some v ∧
      r'.rule_name = v.rule_name ∧ r'.rule_type = v.rule_type ∧
      r'.action_type = v.action_type ∧ r'.condition_logic = v.condition_logic ∧
      r'.priority = v.priority ∧ r'.effective_from = v.effective_from ∧
      ∃ nv, db'.versions = db.versions ++ [nv] ∧
        nv.rule_id = rid ∧
        nv.version_number = maxVersionNumber db.versions rid + 1 ∧
        nv.change_description = some ("Rollback to version " ++ toString v.version_number) ∧
        ∀ w ∈ db.versions, w.rule_id = rid → w.version_number < nv.version_number := by
  intro db rid vid u db' r' h
  cases hfr : db.rules.find? (fun r => r.id == rid) with
  | none => simp [serviceRollback, hfr] at h
  | some rule =>
    cases hfv : db.versions.find? (fun w => w.id == vid && w.rule_id == rid) with
    | none => simp [serviceRollback, hfr, hfv] at h
    | some v =>
      have hruleid : rule.id = rid := by
        have := List.find?_some hfr
        simpa using this
      obtain ⟨hdb, hrr⟩ : _ ∧ _ := by
        simpa [serviceRollback, hfr, hfv] using h
      subst hdb
      subst hrr
      refine ⟨v, rfl, rfl, rfl, rfl, rfl, rfl, rfl, ?_⟩
      refine ⟨_, rfl, ?_, ?_, rfl, ?_⟩
      · exact hruleid
      · rw [← hruleid]
      · intro w hw hwc
        have hle := le_maxVersionNumber db.versions rid w hw hwc
        have hnum : maxVersionNumber db.versions rule.id = maxVersionNumber db.versions rid := by
          rw [hruleid]
        show w.version_number < maxVersionNumber db.versions rule.id + 1
        omega

/-- C3 witness: instantiates the amended rollback theorem on the concrete
create–update–rollback scenario (rule 0, back to version row 1). -/
theorem C3_witness :
    ∃ v, c3db2.versions.find? (fun w => w.id == 1 && w.rule_id == 0) = some v ∧
      c3r3.rule_name = v.rule_name ∧ c3r3.rule_type = v.rule_type ∧
      c3r3.action_type = v.action_type ∧ c3r3.condition_logic = v.condition_logic ∧
      c3r3.priority = v.priority ∧ c3r3.effective_from = v.effective_from ∧
      ∃ nv, c3db3.versions = c3db2.versions ++ [nv] ∧
        nv.rule_id = 0 ∧
        nv.version_number = maxVersionNumber c3db2.versions 0 + 1 ∧
        nv.change_description = some ("Rollback to version " ++ toString v.version_number) ∧
        ∀ w ∈ c3db2.versions, w.rule_id = 0 → w.version_number < nv.version_number :=
  C3_amended_rollback_appends c3db2 0 1 1 c3db3 c3r3 rfl

/-- Inserting keeps the same multiset of rules. -/
theorem insertByPriority_perm (r : Rule) (l : List Rule) :
    (insertByPriority r l).Perm (r :: l) := by
  induction l with
  | nil => exact List.Perm.refl _
  | cons x xs ih =>
    rw [insertByPriority]
    split
    · exact List.Perm.refl _
    · exact (List.Perm.cons x ih).trans (List.Perm.swap r x xs)

/-- The priority sort permutes its input. -/
theorem sortByPriority_perm (l : List Rule) : (sortByPriority l).Perm l := by
  induction l with
  | nil => exact List.Perm.refl _
  | cons x xs ih =>
    exact (insertByPriority_perm x (sortByPriority xs)).trans (List.Perm.cons x ih)

/-- Inserting into a priority-sorted list keeps it sorted. -/
theorem insertByPriority_pairwise (r : Rule) (l : List Rule)
    (h : l.Pairwise (fun a b => a.priority ≤ b.priority)) :
    (insertByPriority r l).Pairwise (fun a b => a.priority ≤ b.priority) := by
  induction l with
  | nil => simp [insertByPriority]
  | cons x xs ih =>
    rw [insertByPriority]
    split
    · rename_i hle
      refine List.Pairwise.cons ?_ h
      intro b hb
      rcases List.mem_cons.mp hb with hb | hb
      · rw [hb]; exact hle
      · exact le_trans hle ((List.pairwise_cons.mp h).1 b hb)
    · rename_i hgt
      have hx : x.priority ≤ r.priority := le_of_not_le hgt
      refine List.Pairwise.cons ?_ (ih (List.pairwise_cons.mp h).2)
      intro b hb
      have hb' : b = r ∨ b ∈ xs := by
        have := (insertByPriority_perm r xs).mem_iff.mp hb
        simpa using this
      rcases hb' with hb' | hb'
      · rw [hb']; exact hx
      · exact (List.pairwise_cons.mp h).1 b hb'

/-- The priority sort produces a priority-ascending list. -/
theorem sortByPriority_pairwise (l : List Rule) :
    (sortByPriority l).Pairwise (fun a b => a.priority ≤ b.priority) := by
  induction l with
  | nil => simp [sortByPriority]
  | cons x xs ih => exact insertByPriority_pairwise x _ ih

/-- C6 counterexample: two active, windowless rules share priority 5 but
sit in the table with codes in descending order; `get_active_rules` orders
by priority only, so they come back as `["B", "A"]` — not the
claimed `(priority, code)` ascending order `["A", "B"]`. -/
theorem C6_counterexample :
    (get_active_rules c6db 0 none).map (fun r => r.rule_code) = ["B", "A"] ∧
    (get_active_rules c6db 0 none).map (fun r => r.rule_code) ≠ ["A", "B"] ∧
    (get_active_rules c6db 0 none).map (fun r => r.priority) = [5, 5] ∧
    ('A' : Char) < 'B' :=
  ⟨rfl, by decide, rfl, by decide⟩

/-- C6 amended: the query returns exactly the rules passing the
active/effective-window/type filter, in priority-ascending order — with no
tie-break on rule code (rows of equal priority keep the table's order). -/
theorem C6_amended_active_rules :
    ∀ (db : DB) (now : Int) (ty : Option RuleType),
    (get_active_rules db now ty).Perm (db.rules.filter (activePred now ty)) ∧
    (get_active_rules db now ty).Pairwise (fun a b => a.priority ≤ b.priority) ∧
    ∀ r, r ∈ get_active_rules db now ty ↔ r ∈ db.rules ∧ activePred now ty r = true := by
  intro db now ty
  refine ⟨sortByPriority_perm _, sortByPriority_pairwise _, ?_⟩
  intro r
  show r ∈ sortByPriority (db.rules.filter (activePred now ty)) ↔ _
  rw [(sortByPriority_perm (db.rules.filter (activePred now ty))).mem_iff,
      List.mem_filter]

/-- C6 witness: the amended theorem instantiated on the concrete two-rule
database at instant 0 with no type filter. -/
theorem C6_witness :
    (get_active_rules c6db 0 none).Perm (c6db.rules.filter (activePred 0 none)) ∧
    (get_active_rules c6db 0 none).Pairwise (fun a b => a.priority ≤ b.priority) ∧
    ∀ r, r ∈ get_active_rules c6db 0 none ↔ r ∈ c6db.rules ∧ activePred 0 none r = true :=
  C6_amended_active_rules c6db 0 none

/-- The pipeline's matched-evaluation list projects to the matched rules. -/
theorem pipeline_matchedActions (rules : List Rule) (ctx : Json) :
    ((rules.map (fun r => (r, evaluate_rule r ctx))).filter (fun re => re.2.matched)).map
        (fun re => re.1.action_type)
      = (rules.filter (fun r => (evaluate_rule r ctx).matched)).map (fun r => r.action_type) := by
  induction rules with
  | nil => rfl
  | cons x xs ih =>
    cases hm : (evaluate_rule x ctx).matched <;>
      simp [List.filter_cons, hm, ih]

/-- Scanning the matched rules' actions equals scanning all rules with the
match flag conjoined. -/
theorem any_map_filter (l : List Rule) (p : Rule → Bool) (q : ActionType → Bool) :
    ((l.filter p).map (fun r => r.action_type)).any q
      = l.any (fun r => p r && q r.action_type) := by
  induction l with
  | nil => rfl
  | cons x xs ih =>
    cases hp : p x <;> simp [List.filter_cons, hp, List.any_cons, ih]

/-- The `List.any` is invariant under permutation. -/
theorem perm_any {α : Type} {l l' : List α} (h : l.Perm l') (p : α → Bool) :
    l.any p = l'.any p := by
  induction h with
  | nil => rfl
  | cons x _ ih => simp [List.any_cons, ih]
  | swap x y l => simp [List.any_cons, Bool.or_left_comm]
  | trans _ _ ih1 ih2 => exact ih1.trans ih2

/-- C1: the pipeline evaluates every rule (one trace entry per rule, no stop
at first match), its matched count is the number of rules whose evaluation
matched, and the final outcome follows strict action precedence
deny > flag > approve > none over the matched rules; outcome and count are
invariant under permutation of the rule order. -/
theorem C1_pipeline_outcome_resolution :
    ∀ (rules : List Rule) (ctx : Json),
    (execute_pipeline rules ctx).execution_trace.length = rules.length ∧
    (execute_pipeline rules ctx).total_rules_tested = rules.length ∧
    (execute_pipeline rules ctx).rules_matched
        = rules.countP (fun r => (evaluate_rule r ctx).matched) ∧
    ((execute_pipeline rules ctx).final_outcome =
      if rules.any (fun r => (evaluate_rule r ctx).matched && r.action_type == ActionType.deny)
      then some "deny"
      else if rules.any (fun r => (evaluate_rule r ctx).matched && r.action_type == ActionType.flag)
      then some "flag"
      else if rules.any (fun r => (evaluate_rule r ctx).matched && r.action_type == ActionType.approve)
      then some "approve"
      else none) ∧
    ∀ rules', rules.Perm rules' →
      (execute_pipeline rules' ctx).final_outcome
          = (execute_pipeline rules ctx).final_outcome ∧
      (execute_pipeline rules' ctx).rules_matched
          = (execute_pipeline rules ctx).rules_matched := by
  have hcount : ∀ (rules : List Rule) (ctx : Json),
      (execute_pipeline rules ctx).rules_matched
        = rules.countP (fun r => (evaluate_rule r ctx).matched) := by
    intro rules ctx
    simp only [execute_pipeline]
    rw [pipeline_matchedActions]
    simp [List.countP_eq_length_filter]
  have houtcome : ∀ (rules : List Rule) (ctx : Json),
      (execute_pipeline rules ctx).final_outcome =
        (if rules.any (fun r => (evaluate_rule r ctx).matched && r.action_type == ActionType.deny)
         then some "deny"
         else if rules.any (fun r => (evaluate_rule r ctx).matched && r.action_type == ActionType.flag)
         then some "flag"
         else if rules.any (fun r => (evaluate_rule r ctx).matched && r.action_type == ActionType.approve)
         then some "approve"
         else none) := by
    intro rules ctx
    simp only [execute_pipeline]
    rw [pipeline_matchedActions, any_map_filter, any_map_filter, any_map_filter]
    rfl
  intro rules ctx
  refine ⟨?_, ?_, hcount rules ctx, houtcome rules ctx, ?_⟩
  · simp [execute_pipeline]
  · rfl
  · intro rules' hperm
    constructor
    · rw [houtcome rules ctx, houtcome rules' ctx,
          ← perm_any hperm (fun r => (evaluate_rule r ctx).matched && r.action_type == ActionType.deny),
          ← perm_any hperm (fun r => (evaluate_rule r ctx).matched && r.action_type == ActionType.flag),
          ← perm_any hperm (fun r => (evaluate_rule r ctx).matched && r.action_type == ActionType.approve)]
    · rw [hcount rules ctx, hcount rules' ctx]
      exact (hperm.countP_eq _).symm

/-- C1 witness: the spec's own example — a priority-5 APPROVE rule and a
priority-10 DENY rule, both matching — yields outcome `deny` with
2 matched rules, in either order. -/
theorem C1_witness :
    (execute_pipeline [c1approve, c1deny] ctxX1).rules_matched = 2 ∧
    (execute_pipeline [c1approve, c1deny] ctxX1).final_outcome = some "deny" ∧
    (execute_pipeline [c1deny, c1approve] ctxX1).final_outcome = some "deny" := by
  have h := C1_pipeline_outcome_resolution [c1approve, c1deny] ctxX1
  have hp := h.2.2.2.2 [c1deny, c1approve] (List.Perm.swap c1deny c1approve [])
  exact ⟨h.2.2.1.trans rfl, h.2.2.2.1.trans rfl, hp.1.trans (h.2.2.2.1.trans rfl)⟩

/-- The `seqTo n` has length `n`. -/
theorem seqTo_length (n : Nat) : (seqTo n).length = n := by
  induction n with
  | zero => rfl
  | succ n ih => simp [seqTo, ih]

/-- The SQL `MAX(version_number)` equals a fold over the projected column. -/
theorem maxVersionNumber_eq (vs : List RuleVersion) (rid : Nat) :
    maxVersionNumber vs rid = (versionNumbersIn vs rid).foldl (fun m k => max m k) 0 := by
  rw [versionNumbersIn, List.foldl_map]
  rfl

/-- The running maximum of `[1, ..., n]` is `n`. -/
theorem foldl_max_seqTo (n : Nat) : (seqTo n).foldl (fun m k => max m k) 0 = n := by
  induction n with
  | zero => rfl
  | succ n ih =>
    rw [seqTo, List.foldl_append, ih]
    simp [Nat.max_eq_right (Nat.le_succ n)]

/-- Appending one version row extends exactly its rule's number column. -/
theorem versionNumbersIn_append (vs : List RuleVersion) (v : RuleVersion) (rid : Nat) :
    versionNumbersIn (vs ++ [v]) rid
      = versionNumbersIn vs rid
        ++ (if v.rule_id == rid then [v.version_number] else []) := by
  rw [versionNumbersIn, List.filter_append, List.map_append]
  cases h : (v.rule_id == rid) <;> simp [versionNumbersIn, List.filter_cons, h]

/-- A rule with no version rows has an empty number column. -/
theorem versionNumbersIn_eq_nil (vs : List RuleVersion) (rid : Nat)
    (h : ∀ v ∈ vs, v.rule_id ≠ rid) : versionNumbersIn vs rid = [] := by
  rw [versionNumbersIn]
  have hf : vs.filter (fun v => v.rule_id == rid) = [] :=
    List.filter_eq_nil_iff.mpr (fun v hv => by simp [h v hv])
  rw [hf]
  rfl

/-- Deleting one rule's versions empties its column and keeps the others. -/
theorem versionNumbersIn_filter_ne (vs : List RuleVersion) (rid rid' : Nat) :
    versionNumbersIn (vs.filter (fun v => v.rule_id != rid)) rid'
      = if rid' = rid then [] else versionNumbersIn vs rid' := by
  by_cases h : rid' = rid
  · subst h
    rw [if_pos rfl]
    apply versionNumbersIn_eq_nil
    intro v hv
    have := List.of_mem_filter hv
    simpa using this
  · rw [if_neg h, versionNumbersIn, versionNumbersIn, List.filter_filter]
    congr 1
    apply List.filter_congr
    intro x hx
    cases hx' : (x.rule_id == rid') with
    | false => simp [hx']
    | true =>
      have hxe : x.rule_id = rid' := by simpa using hx'
      simp [hx', hxe]
      exact h

/-- Appending a version numbered current-max-plus-one keeps every rule's
number column gapless. -/
theorem numbering_preserved_append (vs : List RuleVersion) (v : RuleVersion)
    (hinv : ∀ rid, versionNumbersIn vs rid = seqTo (versionNumbersIn vs rid).length)
    (hv : v.version_number = maxVersionNumber vs v.rule_id + 1) :
    ∀ rid, versionNumbersIn (vs ++ [v]) rid
      = seqTo (versionNumbersIn (vs ++ [v]) rid).length := by
  intro rid
  rw [versionNumbersIn_append]
  cases h : (v.rule_id == rid) with
  | false =>
    rw [if_neg (by simp)]
    simp only [List.append_nil]
    exact hinv rid
  | true =>
    rw [if_pos rfl]
    have hr : v.rule_id = rid := by simpa using h
    have hmax : maxVersionNumber vs rid = (versionNumbersIn vs rid).length := by
      conv_lhs => rw [maxVersionNumber_eq, hinv rid]
      rw [foldl_max_seqTo]
    obtain ⟨n, hlist⟩ : ∃ n, versionNumbersIn vs rid = seqTo n :=
      ⟨(versionNumbersIn vs rid).length, hinv rid⟩
    rw [hlist] at hmax ⊢
    rw [seqTo_length] at hmax
    rw [hv, hr, hmax]
    have hlen : ((seqTo n ++ [n + 1] : List Nat)).length = n + 1 := by
      simp [seqTo_length]
    rw [hlen]
    rfl

/-- The empty database satisfies the invariant. -/
theorem DBInv_emptyDB : DBInv emptyDB :=
  ⟨fun r hr => absurd hr (List.not_mem_nil r),
   fun v hv => absurd hv (List.not_mem_nil v),
   fun _ => rfl⟩

/-- Shape of a create: one appended rule carrying the fresh id, one appended
version numbered current-max-plus-one, counter advanced by two. -/
theorem serviceCreate_shape (db : DB) (data : RuleCreate) (u : Nat) :
    ∃ rule v,
      (serviceCreate db data u).1.rules = db.rules ++ [rule] ∧
      rule.id = db.nextId ∧
      (serviceCreate db data u).1.versions = db.versions ++ [v] ∧
      v.rule_id = db.nextId ∧
      v.version_number = maxVersionNumber db.versions db.nextId + 1 ∧
      (serviceCreate db data u).1.nextId = db.nextId + 2 :=
  ⟨_, _, rfl, rfl, rfl, rfl, rfl, rfl⟩

/-- Create preserves the database invariant. -/
theorem DBInv_serviceCreate (db : DB) (data : RuleCreate) (u : Nat) (h : DBInv db) :
    DBInv (serviceCreate db data u).1 := by
  obtain ⟨h1, h2, h3⟩ := h
  obtain ⟨rule, v, hr, hrid, hv, hvrid, hvnum, hn⟩ := serviceCreate_shape db data u
  refine ⟨?_, ?_, ?_⟩
  · intro r hmem
    rw [hr] at hmem
    rw [hn]
    rcases List.mem_append.mp hmem with hm | hm
    · have := h1 r hm; omega
    · have he : r = rule := by simpa using hm
      rw [he, hrid]; omega
  · intro w hmem
    rw [hv] at hmem
    rw [hn]
    rcases List.mem_append.mp hmem with hm | hm
    · have := h2 w hm; omega
    · have he : w = v := by simpa using hm
      rw [he, hvrid]; omega
  · rw [hv]
    apply numbering_preserved_append db.versions v h3
    rw [hvnum, hvrid]

/-- Shape of a successful update: the target row is replaced in place (same
id), one version row numbered current-max-plus-one is appended, the counter
advances by one. -/
theorem serviceUpdate_shape (db : DB) (rid : Nat) (data : RuleUpdate) (u : Nat)
    (db' : DB) (r' : Rule) (h : serviceUpdate db rid data u = some (db', r')) :
    r'.id = rid ∧ (∃ rule, rule ∈ db.rules ∧ rule.id = rid) ∧
    db'.rules = db.rules.map (fun r => if r.id == rid then r' else r) ∧
    db'.nextId = db.nextId + 1 ∧
    ∃ v, db'.versions = db.versions ++ [v] ∧ v.rule_id = rid ∧
      v.version_number = maxVersionNumber db.versions rid + 1 := by
  cases hfr : db.rules.find? (fun r => r.id == rid) with
  | none => simp [serviceUpdate, hfr] at h
  | some rule =>
    have hruleid : rule.id = rid := by simpa using List.find?_some hfr
    obtain ⟨hdb, hrr⟩ : _ ∧ _ := by
      simpa only [serviceUpdate, hfr, Option.some.injEq, Prod.mk.injEq] using h
    subst hdb
    subst hrr
    exact ⟨hruleid, ⟨rule, List.mem_of_find?_eq_some hfr, hruleid⟩, rfl, rfl,
      ⟨_, rfl, hruleid, by rw [← hruleid]; exact rfl⟩⟩

/-- Shape of a successful rollback: same in-place replacement plus appended
snapshot as an update. -/
theorem serviceRollback_shape (db : DB) (rid vid u : Nat) (db' : DB) (r' : Rule)
    (h : serviceRollback db rid vid u = some (db', r')) :
    r'.id = rid ∧ (∃ rule, rule ∈ db.rules ∧ rule.id = rid) ∧
    db'.rules = db.rules.map (fun r => if r.id == rid then r' else r) ∧
    db'.nextId = db.nextId + 1 ∧
    ∃ v, db'.versions = db.versions ++ [v] ∧ v.rule_id = rid ∧
      v.version_number = maxVersionNumber db.versions rid + 1 := by
  cases hfr : db.rules.find? (fun r => r.id == rid) with
  | none => simp [serviceRollback, hfr] at h
  | some rule =>
    cases hfv : db.versions.find? (fun w => w.id == vid && w.rule_id == rid) with
    | none => simp [serviceRollback, hfr, hfv] at h
    | some v0 =>
      have hruleid : rule.id = rid := by simpa using List.find?_some hfr
      obtain ⟨hdb, hrr⟩ : _ ∧ _ := by
        simpa only [serviceRollback, hfr, hfv, Option.some.injEq, Prod.mk.injEq] using h
      subst hdb
      subst hrr
      exact ⟨hruleid, ⟨rule, List.mem_of_find?_eq_some hfr, hruleid⟩, rfl, rfl,
        ⟨_, rfl, hruleid, by rw [← hruleid]⟩⟩

/-- Replacing a rule in place (same id) and appending one correctly numbered
version row preserves the invariant. -/
theorem DBInv_update_like (db db' : DB) (rid : Nat) (r' : Rule) (hinv : DBInv db)
    (hid : r'.id = rid)
    (hex : ∃ rule, rule ∈ db.rules ∧ rule.id = rid)
    (hrules : db'.rules = db.rules.map (fun r => if r.id == rid then r' else r))
    (hnext : db'.nextId = db.nextId + 1)
    (hver : ∃ v, db'.versions = db.versions ++ [v] ∧ v.rule_id = rid ∧
      v.version_number = maxVersionNumber db.versions rid + 1) :
    DBInv db' := by
  obtain ⟨h1, h2, h3⟩ := hinv
  obtain ⟨rule0, hmem0, hid0⟩ := hex
  obtain ⟨v, hv, hvrid, hvnum⟩ := hver
  refine ⟨?_, ?_, ?_⟩
  · intro r hmem
    rw [hrules] at hmem
    rw [hnext]
    obtain ⟨r0, hr0, hfr0⟩ := List.mem_map.mp hmem
    by_cases hc : r0.id = rid
    · have he : r = r' := by rw [← hfr0]; simp [hc]
      rw [he, hid, ← hid0]
      have := h1 rule0 hmem0; omega
    · have he : r = r0 := by rw [← hfr0]; simp [hc]
      rw [he]
      have := h1 r0 hr0; omega
  · intro w hmem
    rw [hv] at hmem
    rw [hnext]
    rcases List.mem_append.mp hmem with hm | hm
    · have := h2 w hm; omega
    · have he : w = v := by simpa using hm
      rw [he, hvrid, ← hid0]
      have := h1 rule0 hmem0; omega
  · rw [hv]
    apply numbering_preserved_append db.versions v h3
    rw [hvnum, hvrid]

/-- Hard delete preserves the invariant (the deleted rule's version column
becomes empty; the others are untouched). -/
theorem DBInv_serviceDelete (db : DB) (rid : Nat) (h : DBInv db) :
    DBInv (serviceDelete db rid).1 := by
  obtain ⟨h1, h2, h3⟩ := h
  unfold serviceDelete
  split
  · refine ⟨?_, ?_, ?_⟩
    · intro r hmem
      exact h1 r (List.mem_of_mem_filter hmem)
    · intro w hmem
      exact h2 w (List.mem_of_mem_filter hmem)
    · intro rid'
      show versionNumbersIn (db.versions.filter (fun v => v.rule_id != rid)) rid' = _
      rw [versionNumbersIn_filter_ne]
      by_cases hc : rid' = rid
      · rw [if_pos hc]; rfl
      · rw [if_neg hc]; exact h3 rid'
  · exact ⟨h1, h2, h3⟩

/-- Shape of a successful toggle: in-place replacement of the target row,
tables and counter otherwise untouched. -/
theorem serviceToggle_shape (db : DB) (rid : Nat) (act : Bool) (u : Nat)
    (db' : DB) (r' : Rule) (h : serviceToggleActive db rid act u = some (db', r')) :
    r'.id = rid ∧ (∃ rule, rule ∈ db.rules ∧ rule.id = rid) ∧
    db'.rules = db.rules.map (fun r => if r.id == rid then r' else r) ∧
    db'.versions = db.versions ∧ db'.nextId = db.nextId := by
  cases hfr : db.rules.find? (fun r => r.id == rid) with
  | none => simp [serviceToggleActive, hfr] at h
  | some rule =>
    have hruleid : rule.id = rid := by simpa using List.find?_some hfr
    obtain ⟨hdb, hrr⟩ : _ ∧ _ := by
      simpa only [serviceToggleActive, hfr, Option.some.injEq, Prod.mk.injEq] using h
    subst hdb
    subst hrr
    exact ⟨hruleid, ⟨rule, List.mem_of_find?_eq_some hfr, hruleid⟩, rfl, rfl, rfl⟩

/-- Toggle preserves the invariant. -/
theorem DBInv_toggle (db db' : DB) (rid : Nat) (r' : Rule) (hinv : DBInv db)
    (hid : r'.id = rid)
    (hex : ∃ rule, rule ∈ db.rules ∧ rule.id = rid)
    (hrules : db'.rules = db.rules.map (fun r => if r.id == rid then r' else r))
    (hvers : db'.versions = db.versions)
    (hnext : db'.nextId = db.nextId) :
    DBInv db' := by
  obtain ⟨h1, h2, h3⟩ := hinv
  obtain ⟨rule0, hmem0, hid0⟩ := hex
  refine ⟨?_, ?_, ?_⟩
  · intro r hmem
    rw [hrules] at hmem
    rw [hnext]
    obtain ⟨r0, hr0, hfr0⟩ := List.mem_map.mp hmem
    by_cases hc : r0.id = rid
    · have he : r = r' := by rw [← hfr0]; simp [hc]
      rw [he, hid, ← hid0]
      exact h1 rule0 hmem0
    · have he : r = r0 := by rw [← hfr0]; simp [hc]
      rw [he]
      exact h1 r0 hr0
  · intro w hmem
    rw [hvers] at hmem
    rw [hnext]
    exact h2 w hmem
  · intro rid'
    rw [hvers]
    exact h3 rid'

/-- Every lifecycle call preserves the invariant. -/
theorem DBInv_step (db : DB) (op : Op) (h : DBInv db) : DBInv (step db op) := by
  cases op with
  | create data user =>
    cases hc : create_rule db data user with
    | error e =>
      have hstep : step db (.create data user) = db := by simp [step, hc]
      rw [hstep]; exact h
    | ok p =>
      obtain ⟨db', r⟩ := p
      have hstep : step db (.create data user) = db' := by simp [step, hc]
      rw [hstep]
      have hp : (db', r) = serviceCreate db data user := by
        unfold create_rule at hc
        split at hc
        · exact Except.noConfusion hc
        · exact (Except.ok.inj hc).symm
      have hdb' : db' = (serviceCreate db data user).1 := by rw [← hp]
      rw [hdb']
      exact DBInv_serviceCreate db data user h
  | update rid data user =>
    cases hc : serviceUpdate db rid data user with
    | none =>
      have hstep : step db (.update rid data user) = db := by simp [step, hc]
      rw [hstep]; exact h
    | some p =>
      obtain ⟨db', r'⟩ := p
      have hstep : step db (.update rid data user) = db' := by simp [step, hc]
      rw [hstep]
      obtain ⟨hid, hex, hrules, hnext, hver⟩ := serviceUpdate_shape db rid data user db' r' hc
      exact DBInv_update_like db db' rid r' h hid hex hrules hnext hver
  | delete rid =>
    have hstep : step db (.delete rid) = (serviceDelete db rid).1 := by simp [step]
    rw [hstep]
    exact DBInv_serviceDelete db rid h
  | toggleActive rid act user =>
    cases hc : serviceToggleActive db rid act user with
    | none =>
      have hstep : step db (.toggleActive rid act user) = db := by simp [step, hc]
      rw [hstep]; exact h
    | some p =>
      obtain ⟨db', r'⟩ := p
      have hstep : step db (.toggleActive rid act user) = db' := by simp [step, hc]
      rw [hstep]
      obtain ⟨hid, hex, hrules, hvers, hnext⟩ := serviceToggle_shape db rid act user db' r' hc
      exact DBInv_toggle db db' rid r' h hid hex hrules hvers hnext
  | rollback rid vid user =>
    cases hc : serviceRollback db rid vid user with
    | none =>
      have hstep : step db (.rollback rid vid user) = db := by simp [step, hc]
      rw [hstep]; exact h
    | some p =>
      obtain ⟨db', r'⟩ := p
      have hstep : step db (.rollback rid vid user) = db' := by simp [step, hc]
      rw [hstep]
      obtain ⟨hid, hex, hrules, hnext, hver⟩ := serviceRollback_shape db rid vid user db' r' hc
      exact DBInv_update_like db db' rid r' h hid hex hrules hnext hver

/-- The invariant propagates along any fold of lifecycle calls. -/
theorem DBInv_foldl (ops : List Op) : ∀ db, DBInv db → DBInv (ops.foldl step db) := by
  induction ops with
  | nil => exact fun db h => h
  | cons op ops ih => exact fun db h => ih (step db op) (DBInv_step db op h)

/-- Every reachable database satisfies the invariant. -/
theorem DBInv_run (ops : List Op) : DBInv (run ops) :=
  DBInv_foldl ops emptyDB DBInv_emptyDB

/-- Membership in `[1, ..., n]`. -/
theorem mem_seqTo (n k : Nat) : k ∈ seqTo n ↔ 1 ≤ k ∧ k ≤ n := by
  induction n with
  | zero =>
    simp only [seqTo, List.not_mem_nil, false_iff]
    omega
  | succ n ih =>
    simp only [seqTo, List.mem_append, List.mem_singleton, ih]
    omega

/-- The `[1, ..., n]` is strictly increasing pairwise. -/
theorem seqTo_pairwise_lt (n : Nat) : (seqTo n).Pairwise (· < ·) := by
  induction n with
  | zero => simp [seqTo]
  | succ n ih =>
    rw [seqTo]
    refine List.pairwise_append.mpr ⟨ih, by simp, ?_⟩
    intro a ha b hb
    have hb' : b = n + 1 := by simpa using hb
    have ha' := (mem_seqTo n a).mp ha
    omega

/-- The `[1, ..., n]` has no duplicates. -/
theorem seqTo_nodup (n : Nat) : (seqTo n).Nodup :=
  (seqTo_pairwise_lt n).imp (fun h => Nat.ne_of_lt h)

/-- The `[1, ..., n]` is a strictly increasing chain. -/
theorem seqTo_chain_lt (n : Nat) : (seqTo n).Chain' (· < ·) :=
  List.chain'_iff_pairwise.mpr (seqTo_pairwise_lt n)

/-- C7: after any sequence of lifecycle calls from the empty database, every
rule's version-number column is exactly `[1, ..., n]` — gapless, strictly
increasing, duplicate-free, starting at 1 — because `_create_version` always
appends current-max-plus-one and versions are only ever appended (or dropped
wholesale with their rule). -/
theorem C7_version_numbers_gapless :
    ∀ (ops : List Op) (rid : Nat),
    versionNumbersIn (run ops).versions rid
        = seqTo (versionNumbersIn (run ops).versions rid).length ∧
    (versionNumbersIn (run ops).versions rid).Chain' (· < ·) ∧
    (versionNumbersIn (run ops).versions rid).Nodup ∧
    ∀ k, k ∈ versionNumbersIn (run ops).versions rid ↔
      1 ≤ k ∧ k ≤ (versionNumbersIn (run ops).versions rid).length := by
  intro ops rid
  have hinv := (DBInv_run ops).2.2 rid
  refine ⟨hinv, ?_, ?_, ?_⟩
  · rw [hinv]; exact seqTo_chain_lt _
  · rw [hinv]; exact seqTo_nodup _
  · intro k
    conv_lhs => rw [hinv]
    rw [mem_seqTo]

/-- C7 witness: the invariant instantiated on the concrete create-update
trace for rule 0 (whose column is `[1, 2]`). -/
theorem C7_witness :
    versionNumbersIn (run c7ops).versions 0
        = seqTo (versionNumbersIn (run c7ops).versions 0).length ∧
    (versionNumbersIn (run c7ops).versions 0).Chain' (· < ·) ∧
    (versionNumbersIn (run c7ops).versions 0).Nodup ∧
    ∀ k, k ∈ versionNumbersIn (run c7ops).versions 0 ↔
      1 ≤ k ∧ k ≤ (versionNumbersIn (run c7ops).versions 0).length :=
  C7_version_numbers_gapless c7ops 0

end RulesEngine
